import Mathlib

/-!
Verification development for the e-reader repository.

The pagination engine of `formatted_reader_view.py` is embedded as pure Lean
functions over a `Buffer` value.  A `Buffer` captures the state of the hidden
Tk measurement text widget after a chapter has been inserted into it:

* `text` is the widget content without the implicit trailing newline, so that
  the Tk index `end-1c` corresponds to the character offset `text.length` and
  the canonical index `line.char` corresponds to a plain character offset;
* `tagsAt i` is `tag_names(i)`, the list of tags present at offset `i`;
* `tagNames` is `tag_names()`, the widget's tag list in order;
* `tagRangesOf t` is `tag_ranges(t)` as a list of `[start, end)` offset pairs;
* `displayLines a b` is `count(a, b, "displaylines")[0]`, the toolkit's
  wrapped-display-line count for the span `[a, b)` at the widget's width.

The toolkit measurement results (`displayLines` and the font `linespace`
metrics held in a `FontTable`) are inputs of the embedding, exactly as the
spec treats them: an injected Text Metrics Provider.
-/

structure Buffer where
  text : List Char
  tagsAt : Nat → List String
  tagNames : List String
  tagRangesOf : String → List (Nat × Nat)
  displayLines : Nat → Nat → Nat

/-- The `linespace` metric of each font in `self._fonts` (see `define_tags`). -/
structure FontTable where
  base : Nat
  h1 : Nat
  h2 : Nat
  h3 : Nat
  bold : Nat
  italic : Nat

/-- Default buffer value, used only as the `getD` fallback for list lookups
that are performed under an in-bounds hypothesis. -/
def emptyBuffer : Buffer :=
  { text := [], tagsAt := fun _ => [], tagNames := [],
    tagRangesOf := fun _ => [], displayLines := fun _ _ => 0 }

instance : Inhabited Buffer := ⟨emptyBuffer⟩

/-- Tk text widgets keep an implicit final newline after the content, so
`get(i, i+1c)` at offset `text.length` yields a newline.  This models the
`next_char` lookup of `_build_pages`. -/
def nextChar (t : List Char) (i : Nat) : Char := t.getD i '\n'

/-- `pick_font_for_index` from `_build_pages`: choose the measuring font and
the heading spacing from the tags present at `idx`.  Returns the font's
linespace together with `spacing1` and `spacing3`. -/
def pick_font_for_index (buf : Buffer) (fonts : FontTable) (idx : Nat) :
    Nat × Nat × Nat :=
  let tags := buf.tagsAt idx
  if "h1" ∈ tags then (fonts.h1, 8, 8)
  else if "h2" ∈ tags then (fonts.h2, 6, 6)
  else if "h3" ∈ tags then (fonts.h3, 4, 4)
  else (fonts.base, 0, 0)

/-- Height contributed by the chunk `[idx, chunk_end)` in `_build_pages`:
`display_lines * line_space + spacing1 + spacing3`, plus the paragraph
spacing 6 when the character after the chunk is a newline.  The
`count(...)[0] or 1` fallback replaces a zero display-line count by 1. -/
def added_height (buf : Buffer) (fonts : FontTable) (idx chunk_end : Nat) : Int :=
  let dl := buf.displayLines idx chunk_end
  let display_lines := if dl = 0 then 1 else dl
  let m := pick_font_for_index buf fonts idx
  let base : Int := (display_lines * m.1 + m.2.1 + m.2.2 : Nat)
  if nextChar buf.text chunk_end = '\n' then base + 6 else base

/-- Usable page height computed at the top of `_build_pages`:
`max(1, canvas_height - 2*PAGE_MARGIN - footer_space)` with the `or`
fallbacks (`footer_space or 40`, `canvas_height or WINDOW_HEIGHT`), minus the
two-line fudge factor `2 * linespace(base)`.  The extra `bottom_margin = 4`
is applied at the comparison site, as in the source. -/
def visible_height (fonts : FontTable) (footer_h main_h : Nat) : Int :=
  (max 1 ((if main_h = 0 then (480 : Int) else (main_h : Int)) - 2 * 16 -
      (if footer_h = 0 then (40 : Int) else (footer_h : Int)))) -
    2 * (fonts.base : Int)

/-- Inner `while True` loop of `_build_pages`.  Starting a page at `ps` with
`used` pixels consumed and the cursor at `idx`, it repeatedly takes the next
(at most) 50-character chunk, adds its measured height, and stops either when
the budget `vh - 4` would be exceeded (force-including the first chunk of the
page so a page is never empty) or when the end of the buffer is reached.
Returns the offset at which the page ends. -/
def page_inner_loop (buf : Buffer) (fonts : FontTable) (vh : Int) (ps : Nat)
    (used : Int) (idx : Nat) : Nat :=
  if used + added_height buf fonts idx (min (idx + 50) buf.text.length) > vh - 4 then
    if idx = ps then min (idx + 50) buf.text.length else idx
  else if _h : buf.text.length ≤ min (idx + 50) buf.text.length then
    min (idx + 50) buf.text.length
  else
    page_inner_loop buf fonts vh ps
      (used + added_height buf fonts idx (min (idx + 50) buf.text.length))
      (min (idx + 50) buf.text.length)
termination_by buf.text.length - idx
decreasing_by omega

theorem page_inner_loop_bounds (buf : Buffer) (fonts : FontTable) (vh : Int)
    (ps : Nat) :
    ∀ (n : Nat) (idx : Nat) (used : Int), buf.text.length - idx ≤ n →
      ps < buf.text.length → ps ≤ idx → idx ≤ buf.text.length →
      ps < page_inner_loop buf fonts vh ps used idx ∧
        page_inner_loop buf fonts vh ps used idx ≤ buf.text.length := by
  intro n
  induction n with
  | zero =>
    intro idx used hn hps hpsidx hidx
    rw [page_inner_loop]
    have hidxlen : idx = buf.text.length := by omega
    split
    · split
      · constructor <;> omega
      · constructor <;> omega
    · split
      · constructor <;> omega
      · omega
  | succ n ih =>
    intro idx used hn hps hpsidx hidx
    rw [page_inner_loop]
    split
    · split
      · constructor <;> omega
      · constructor <;> omega
    · split
      · constructor <;> omega
      · rename_i h1 h2
        exact ih _ _ (by omega) hps (by omega) (by omega)

theorem page_inner_loop_gt (buf : Buffer) (fonts : FontTable) (vh : Int)
    (ps : Nat) (hps : ps < buf.text.length) :
    ps < page_inner_loop buf fonts vh ps 0 ps :=
  (page_inner_loop_bounds buf fonts vh ps (buf.text.length - ps) ps 0
    (by omega) hps (by omega) (by omega)).1

theorem page_inner_loop_le (buf : Buffer) (fonts : FontTable) (vh : Int)
    (ps : Nat) (hps : ps < buf.text.length) :
    page_inner_loop buf fonts vh ps 0 ps ≤ buf.text.length :=
  (page_inner_loop_bounds buf fonts vh ps (buf.text.length - ps) ps 0
    (by omega) hps (by omega) (by omega)).2

/-- Outer `while` loop of `_build_pages`: emit one page starting at `start`,
ending where the inner loop stops, and continue from there until the end of
the buffer (`buf_end`, offset `text.length`) is reached. -/
def page_outer_loop (buf : Buffer) (fonts : FontTable) (vh : Int)
    (start : Nat) : List (Nat × Nat) :=
  if h : start < buf.text.length then
    if _h2 : buf.text.length ≤ page_inner_loop buf fonts vh start 0 start then
      [(start, page_inner_loop buf fonts vh start 0 start)]
    else
      (start, page_inner_loop buf fonts vh start 0 start) ::
        page_outer_loop buf fonts vh (page_inner_loop buf fonts vh start 0 start)
  else []
termination_by buf.text.length - start
decreasing_by
  have := page_inner_loop_gt buf fonts vh start h
  omega

/-- `_build_pages`: compute the usable height, handle the empty-buffer early
return `[("1.0", "end")]` (the Tk index `end` is offset `text.length + 1`,
one past the implicit trailing newline), run the paging loop from offset 0,
and fall back to `[("1.0", "end")]` if no pages were produced. -/
def build_pages (buf : Buffer) (fonts : FontTable) (footer_h main_h : Nat) :
    List (Nat × Nat) :=
  if buf.text.length = 0 then [(0, buf.text.length + 1)]
  else if page_outer_loop buf fonts (visible_height fonts footer_h main_h) 0 = [] then
    [(0, buf.text.length + 1)]
  else page_outer_loop buf fonts (visible_height fonts footer_h main_h) 0

/-- `isPartition s e ps` holds when the page list `ps` is nonempty, its first
page starts at `s`, each page's end equals the next page's start, every page
satisfies `start ≤ end`, and the last page ends at `e`: the pages partition
`[s, e)` into contiguous, non-overlapping ranges. -/
def isPartition (s e : Nat) : List (Nat × Nat) → Bool
  | [] => false
  | [(a, b)] => decide (a = s) && decide (b = e) && decide (a ≤ b)
  | (a, b) :: p :: rest => decide (a = s) && decide (a ≤ b) && isPartition b e (p :: rest)

theorem page_outer_loop_spec (buf : Buffer) (fonts : FontTable) (vh : Int) :
    ∀ (n : Nat) (start : Nat), buf.text.length - start ≤ n →
      start < buf.text.length →
      isPartition start buf.text.length (page_outer_loop buf fonts vh start) = true ∧
        ∀ p ∈ page_outer_loop buf fonts vh start, p.1 < p.2 := by
  intro n
  induction n with
  | zero => intro start hn hs; omega
  | succ n ih =>
    intro start hn hs
    have hgt := page_inner_loop_gt buf fonts vh start hs
    have hle := page_inner_loop_le buf fonts vh start hs
    rw [page_outer_loop]
    rw [dif_pos hs]
    by_cases h2 : buf.text.length ≤ page_inner_loop buf fonts vh start 0 start
    · rw [dif_pos h2]
      have : page_inner_loop buf fonts vh start 0 start = buf.text.length := by omega
      constructor
      · simp [isPartition, this]
        omega
      · intro p hp
        simp at hp
        subst hp
        simpa [this] using hs
    · rw [dif_neg h2]
      have hrec := ih (page_inner_loop buf fonts vh start 0 start) (by omega) (by omega)
      constructor
      · cases hout : page_outer_loop buf fonts vh (page_inner_loop buf fonts vh start 0 start) with
        | nil => rw [hout] at hrec; simp [isPartition] at hrec
        | cons q qs =>
          rw [hout] at hrec
          simp only [isPartition]
          rw [hrec.1]
          simp
          omega
      · intro p hp
        simp at hp
        rcases hp with hp | hp
        · subst hp; simpa using hgt
        · exact hrec.2 p hp

theorem build_pages_of_pos (buf : Buffer) (fonts : FontTable)
    (footer_h main_h : Nat) (h : 0 < buf.text.length) :
    build_pages buf fonts footer_h main_h =
      page_outer_loop buf fonts (visible_height fonts footer_h main_h) 0 := by
  have hspec := page_outer_loop_spec buf fonts (visible_height fonts footer_h main_h)
    buf.text.length 0 (by omega) h
  unfold build_pages
  rw [if_neg (by omega)]
  rw [if_neg]
  intro hnil
  rw [hnil] at hspec
  simp [isPartition] at hspec

theorem build_pages_ne_nil (buf : Buffer) (fonts : FontTable)
    (footer_h main_h : Nat) : build_pages buf fonts footer_h main_h ≠ [] := by
  unfold build_pages
  split
  · simp
  · split
    · simp
    · assumption

/-- Concrete buffer used by the witnesses: a short untagged chapter where
each span measures as one display line. -/
def sampleBuffer : Buffer :=
  { text := ("Hello pagination world, a tiny chapter body.").toList,
    tagsAt := fun _ => [], tagNames := [], tagRangesOf := fun _ => [],
    displayLines := fun _ _ => 1 }

/-- Concrete font metrics used by the witnesses. -/
def sampleFonts : FontTable :=
  { base := 18, h1 := 30, h2 := 26, h3 := 22, bold := 18, italic := 14 }

/-- C1: for every chapter buffer with nonempty flattened text and every
viewport, `_build_pages` produces a page list that partitions the text
exactly: the first page starts at offset 0, each page's end equals the next
page's start, the last page ends at the end of the buffer, pages are
contiguous and non-overlapping, and there is at least one page. -/
theorem build_pages_partition (buf : Buffer) (fonts : FontTable)
    (footer_h main_h : Nat) (h : 0 < buf.text.length) :
    isPartition 0 buf.text.length (build_pages buf fonts footer_h main_h) = true := by
  rw [build_pages_of_pos buf fonts footer_h main_h h]
  exact (page_outer_loop_spec buf fonts (visible_height fonts footer_h main_h)
    buf.text.length 0 (by omega) h).1

theorem build_pages_partition_witness :
    0 < sampleBuffer.text.length ∧
      isPartition 0 sampleBuffer.text.length
        (build_pages sampleBuffer sampleFonts 40 480) = true :=
  ⟨by decide, build_pages_partition sampleBuffer sampleFonts 40 480 (by decide)⟩

/-- C2: pagination is deterministic.  `_build_pages` is a pure function of
the measurement buffer, the font metrics and the viewport heights, so two
runs on identical `(document, viewport, metrics)` inputs — in particular a
re-run after a no-op resize that left every input unchanged — produce
bit-identical page lists. -/
theorem build_pages_deterministic (b1 b2 : Buffer) (f1 f2 : FontTable)
    (fh1 fh2 mh1 mh2 : Nat) (hb : b1 = b2) (hf : f1 = f2)
    (hfh : fh1 = fh2) (hmh : mh1 = mh2) :
    build_pages b1 f1 fh1 mh1 = build_pages b2 f2 fh2 mh2 := by
  subst hb hf hfh hmh
  rfl

theorem build_pages_deterministic_witness :
    sampleBuffer = sampleBuffer ∧
      build_pages sampleBuffer sampleFonts 40 480 =
        build_pages sampleBuffer sampleFonts 40 480 :=
  ⟨rfl, build_pages_deterministic sampleBuffer sampleBuffer sampleFonts
    sampleFonts 40 40 480 480 rfl rfl rfl rfl⟩

theorem page_inner_loop_forced (buf : Buffer) (fonts : FontTable) (vh : Int)
    (ps : Nat) (used : Int)
    (h : used + added_height buf fonts ps (min (ps + 50) buf.text.length) > vh - 4) :
    page_inner_loop buf fonts vh ps used ps = min (ps + 50) buf.text.length := by
  rw [page_inner_loop]
  rw [if_pos h, if_pos rfl]

/-- C3: pagination terminates on every finite buffer (`build_pages` is a
total function) and never emits an empty page: no page list is empty, every
page covers at least one character, no content is dropped (the pages still
partition the whole text), when the very first chunk of a page already
exceeds the height budget it is force-included so the first page is that
chunk, and a single block of at most one chunk whose height exceeds the
viewport yields exactly one page containing all of it. -/
theorem build_pages_never_empty (buf : Buffer) (fonts : FontTable)
    (footer_h main_h : Nat) (h : 0 < buf.text.length) :
    build_pages buf fonts footer_h main_h ≠ [] ∧
      (∀ p ∈ build_pages buf fonts footer_h main_h, p.1 < p.2) ∧
      isPartition 0 buf.text.length (build_pages buf fonts footer_h main_h) = true ∧
      (added_height buf fonts 0 (min 50 buf.text.length) >
          visible_height fonts footer_h main_h - 4 →
        (build_pages buf fonts footer_h main_h).head? =
            some (0, min 50 buf.text.length) ∧
          (buf.text.length ≤ 50 →
            build_pages buf fonts footer_h main_h = [(0, buf.text.length)])) := by
  have hspec := page_outer_loop_spec buf fonts
    (visible_height fonts footer_h main_h) buf.text.length 0 (by omega) h
  refine ⟨build_pages_ne_nil buf fonts footer_h main_h, ?_, ?_, ?_⟩
  · rw [build_pages_of_pos buf fonts footer_h main_h h]
    exact hspec.2
  · rw [build_pages_of_pos buf fonts footer_h main_h h]
    exact hspec.1
  · intro hover
    have hinner : page_inner_loop buf fonts
        (visible_height fonts footer_h main_h) 0 0 0 = min 50 buf.text.length := by
      rw [page_inner_loop_forced buf fonts (visible_height fonts footer_h main_h) 0 0
        (by simpa using hover)]
    rw [build_pages_of_pos buf fonts footer_h main_h h]
    rw [page_outer_loop, dif_pos h]
    constructor
    · by_cases h2 : buf.text.length ≤ page_inner_loop buf fonts
          (visible_height fonts footer_h main_h) 0 0 0
      · rw [dif_pos h2]
        simp [hinner]
      · rw [dif_neg h2]
        simp [hinner]
    · intro hle50
      have hmin : min 50 buf.text.length = buf.text.length := by omega
      rw [dif_pos (by rw [hinner, hmin])]
      rw [hinner, hmin]

theorem build_pages_never_empty_witness :
    0 < sampleBuffer.text.length ∧
      (build_pages sampleBuffer sampleFonts 40 480 ≠ [] ∧
        (∀ p ∈ build_pages sampleBuffer sampleFonts 40 480, p.1 < p.2) ∧
        isPartition 0 sampleBuffer.text.length
          (build_pages sampleBuffer sampleFonts 40 480) = true ∧
        (added_height sampleBuffer sampleFonts 0 (min 50 sampleBuffer.text.length) >
            visible_height sampleFonts 40 480 - 4 →
          (build_pages sampleBuffer sampleFonts 40 480).head? =
              some (0, min 50 sampleBuffer.text.length) ∧
            (sampleBuffer.text.length ≤ 50 →
              build_pages sampleBuffer sampleFonts 40 480 =
                [(0, sampleBuffer.text.length)]))) :=
  ⟨by decide, build_pages_never_empty sampleBuffer sampleFonts 40 480 (by decide)⟩

/-- Tk `get(a, b)` on a text widget whose content is `t` plus the implicit
trailing newline: the characters of the half-open index range `[a, b)`. -/
def tkGet (t : List Char) (a b : Nat) : List Char :=
  ((t ++ ['\n']).drop a).take (b - a)

/-- Style projection step inside `display_page` for a single tag range
`r = [rstart, rend)` and a page `[s, e)`: skip the range when it lies
entirely before or after the page, otherwise clip it to the page and rebase
it to page-local offsets (`n_before = overlap_start - s`,
`n_len = overlap_end - overlap_start`), skipping ranges whose clipped
length is zero. -/
def project_tag_range (s e : Nat) (r : Nat × Nat) : Option (Nat × Nat) :=
  if r.2 ≤ s ∨ e ≤ r.1 then none
  else
    let overlap_start := max r.1 s
    let overlap_end := min r.2 e
    let n_before := overlap_start - s
    let n_len := overlap_end - overlap_start
    if n_len = 0 then none else some (n_before, n_before + n_len)

/-- The `Copy formatting` loop of `display_page`: for every tag of the
buffer except the selection tags (`tag.startswith("sel")`, modelled as a
character-level prefix test, which agrees with the byte-level one on UTF-8
strings), project each of its ranges onto the page `[s, e)` and collect the
page-local ranges that survive. -/
def copy_formatting (buf : Buffer) (s e : Nat) : List (String × Nat × Nat) :=
  (buf.tagNames.map (fun tag =>
    if List.isPrefixOf ("sel".toList) tag.toList then []
    else (buf.tagRangesOf tag).filterMap (fun r =>
      (project_tag_range s e r).map (fun q => (tag, q.1, q.2))))).flatten

/-!
Reader session state.  `spineBufs` models `self.spine_items` composed with
chapter conversion: `insert_html_into_buffer` is deterministic, so entry `i`
is the measurement-buffer value that loading chapter `i` produces.  The
displayed text widget is modelled by the page text, the projected tag
ranges, and the two footer labels.
-/

structure Reader where
  spineBufs : List Buffer
  fonts : FontTable
  footer_h : Nat
  main_h : Nat
  current_chapter : Nat
  buffer : Buffer
  pages : List (Nat × Nat)
  current_page : Nat
  canvasText : List Char
  canvasTags : List (String × Nat × Nat)
  footerPage : Nat × Nat
  footerChapter : Nat × Nat

/-- `display_page`: return unchanged when there are no pages, otherwise
clamp `current_page` into `[0, len(pages))` (`max(0, min(...))`; the lower
clamp is the identity on `Nat`), extract the page text from the measurement
buffer, project the style ranges onto it, and update the two footer
labels. -/
def display_page (r : Reader) : Reader :=
  if r.pages = [] then r
  else
    let cp := min r.current_page (r.pages.length - 1)
    let pg := r.pages.getD cp (0, 0)
    { r with
      current_page := cp,
      canvasText := tkGet r.buffer.text pg.1 pg.2,
      canvasTags := copy_formatting r.buffer pg.1 pg.2,
      footerPage := (cp + 1, r.pages.length),
      footerChapter := (r.current_chapter + 1, r.spineBufs.length) }

/-- `load_chapter(index)`: bounds-check `0 <= index < len(self.spine_items)`
and return unchanged on failure; otherwise rebuild the measurement buffer
from the chapter content (deterministic conversion, looked up in
`spineBufs`), rebuild the page list (`_finish_paging`), reset
`current_chapter`/`current_page`, and display the first page. -/
def load_chapter (r : Reader) (index : Int) : Reader :=
  if 0 ≤ index ∧ index < (r.spineBufs.length : Int) then
    display_page
      { r with
        buffer := r.spineBufs.getD index.toNat emptyBuffer,
        pages := build_pages (r.spineBufs.getD index.toNat emptyBuffer)
          r.fonts r.footer_h r.main_h,
        current_chapter := index.toNat,
        current_page := 0 }
  else r

/-- `next_page`: advance within the chapter if a next page exists, else load
the next chapter if one exists, else do nothing. -/
def next_page (r : Reader) : Reader :=
  if r.current_page + 1 < r.pages.length then
    display_page { r with current_page := r.current_page + 1 }
  else if r.current_chapter + 1 < r.spineBufs.length then
    load_chapter r ((r.current_chapter : Int) + 1)
  else r

/-- `prev_page`: step back within the chapter if possible, else load the
previous chapter and jump to its last page (`max(0, len(pages) - 1)`, which
on `Nat` is `len(pages) - 1`), else do nothing. -/
def prev_page (r : Reader) : Reader :=
  if 0 < r.current_page then
    display_page { r with current_page := r.current_page - 1 }
  else if 0 < r.current_chapter then
    let r1 := load_chapter r ((r.current_chapter : Int) - 1)
    display_page { r1 with current_page := r1.pages.length - 1 }
  else r

/-- Buffer with the overlapping style ranges of the spec's projection
example: bold on `[0,10)` and heading-1 on `[5,15)`. -/
def demoStyledBuffer : Buffer :=
  { text := (String.mk (List.replicate 20 'x')).toList,
    tagsAt := fun _ => [],
    tagNames := ["bold", "h1"],
    tagRangesOf := fun t =>
      if t = "bold" then [(0, 10)] else if t = "h1" then [(5, 15)] else [],
    displayLines := fun _ _ => 1 }

/-- C7: `display_page` copies a style range onto the displayed page exactly
when the range intersects the page `[s, e)`, and the copied range is the
intersection rebased to page-local offsets
(`[max(rstart, s) - s, min(rend, e) - s)`).  In particular, with bold on
`[0,10)` and heading-1 on `[5,15)`, the page `[3,12)` carries bold on
page-local `[0,7)` and heading-1 on `[2,9)`, while a non-intersecting range
such as `[0,3)` is skipped entirely rather than clipped to empty. -/
theorem project_tag_range_spec :
    (∀ s e rs re : Nat,
      project_tag_range s e (rs, re) =
        if max rs s < min re e then some (max rs s - s, min re e - s) else none) ∧
      project_tag_range 3 12 (0, 10) = some (0, 7) ∧
      project_tag_range 3 12 (5, 15) = some (2, 9) ∧
      project_tag_range 3 12 (0, 3) = none ∧
      copy_formatting demoStyledBuffer 3 12 = [("bold", 0, 7), ("h1", 2, 9)] := by
  refine ⟨?_, by decide, by decide, by decide, ?_⟩
  · intro s e rs re
    unfold project_tag_range
    simp only [max_def, min_def]
    split_ifs <;>
      first
        | rfl
        | omega
        | (simp only [Option.some.injEq, Prod.mk.injEq, true_and, and_true]; omega)
  · simp only [copy_formatting, demoStyledBuffer]
    decide

/-- "Go to Bookmark" branch of `_select_modal_option` in
`epub_library_view.py`, with the `TkDisplay` delegation of
`DisplayLayer.py` inlined: `load_chapter(chap)` on the current reader, then
set its `current_page` to the stored page, then `display_page()`. -/
def go_to_bookmark (r : Reader) (chap : Int) (page : Nat) : Reader :=
  display_page { load_chapter r chap with current_page := page }

theorem display_page_pages (r : Reader) : (display_page r).pages = r.pages := by
  unfold display_page
  split <;> rfl

theorem display_page_buffer (r : Reader) : (display_page r).buffer = r.buffer := by
  unfold display_page
  split <;> rfl

theorem display_page_chapter (r : Reader) :
    (display_page r).current_chapter = r.current_chapter := by
  unfold display_page
  split <;> rfl

theorem display_page_current_page (r : Reader) (hne : r.pages ≠ []) :
    (display_page r).current_page = min r.current_page (r.pages.length - 1) := by
  unfold display_page
  rw [if_neg hne]

/-- C4: `next_page()` at the last page of the last chapter is a no-op that
leaves the whole reader state — chapter index, page index, page list and
displayed content — unchanged, and `prev_page()` at page 0 of chapter 0 is
likewise a no-op; neither raises an error (both are total functions). -/
theorem nav_boundary_noop (r : Reader) :
    (r.current_page + 1 = r.pages.length →
      r.current_chapter + 1 = r.spineBufs.length → next_page r = r) ∧
      (r.current_page = 0 → r.current_chapter = 0 → prev_page r = r) := by
  constructor
  · intro h1 h2
    unfold next_page
    rw [if_neg (by omega), if_neg (by omega)]
  · intro h1 h2
    unfold prev_page
    rw [if_neg (by omega), if_neg (by omega)]

/-- Concrete one-chapter, one-page reader state used by the witnesses: it is
simultaneously at the last page of the last chapter and at page 0 of
chapter 0. -/
def sampleReader : Reader :=
  { spineBufs := [sampleBuffer], fonts := sampleFonts, footer_h := 40,
    main_h := 480, current_chapter := 0, buffer := sampleBuffer,
    pages := [(0, 44)], current_page := 0, canvasText := [], canvasTags := [],
    footerPage := (1, 1), footerChapter := (1, 1) }

theorem nav_boundary_noop_witness :
    (sampleReader.current_page + 1 = sampleReader.pages.length ∧
        sampleReader.current_chapter + 1 = sampleReader.spineBufs.length ∧
        sampleReader.current_page = 0 ∧ sampleReader.current_chapter = 0) ∧
      next_page sampleReader = sampleReader ∧
        prev_page sampleReader = sampleReader :=
  ⟨⟨by decide, by decide, by decide, by decide⟩,
    (nav_boundary_noop sampleReader).1 (by decide) (by decide),
    (nav_boundary_noop sampleReader).2 (by decide) (by decide)⟩

/-- C10: `load_chapter(index)` for any index outside `[0, chapter count)`
returns immediately and leaves the whole reader state — current chapter,
page list, current page, and the measurement buffer — exactly as before. -/
theorem load_chapter_out_of_bounds (r : Reader) (index : Int)
    (h : ¬(0 ≤ index ∧ index < (r.spineBufs.length : Int))) :
    load_chapter r index = r := by
  unfold load_chapter
  rw [if_neg h]

theorem load_chapter_out_of_bounds_witness :
    (¬((0 : Int) ≤ -1 ∧ (-1 : Int) < (sampleReader.spineBufs.length : Int))) ∧
      load_chapter sampleReader (-1) = sampleReader :=
  ⟨by decide, load_chapter_out_of_bounds sampleReader (-1) (by decide)⟩

/-- C5: `prev_page()` at page 0 of a chapter with index greater than 0
converts and repaginates the previous chapter and lands on the last page of
its freshly computed page list, not its first. -/
theorem prev_page_lands_on_last (r : Reader) (h0 : r.current_page = 0)
    (h1 : 0 < r.current_chapter) (h2 : r.current_chapter ≤ r.spineBufs.length) :
    (prev_page r).current_chapter = r.current_chapter - 1 ∧
      (prev_page r).buffer =
        r.spineBufs.getD (r.current_chapter - 1) emptyBuffer ∧
      (prev_page r).pages =
        build_pages (r.spineBufs.getD (r.current_chapter - 1) emptyBuffer)
          r.fonts r.footer_h r.main_h ∧
      (prev_page r).current_page + 1 =
        (build_pages (r.spineBufs.getD (r.current_chapter - 1) emptyBuffer)
          r.fonts r.footer_h r.main_h).length := by
  have htogether :
      ((r.current_chapter : Int) - 1).toNat = r.current_chapter - 1 := by omega
  have hcond : 0 ≤ (r.current_chapter : Int) - 1 ∧
      (r.current_chapter : Int) - 1 < (r.spineBufs.length : Int) := by omega
  have hne := build_pages_ne_nil
    (r.spineBufs.getD (r.current_chapter - 1) emptyBuffer) r.fonts r.footer_h r.main_h
  have hlen :
      1 ≤ (build_pages (r.spineBufs.getD (r.current_chapter - 1) emptyBuffer)
        r.fonts r.footer_h r.main_h).length := by
    cases hbp : build_pages (r.spineBufs.getD (r.current_chapter - 1) emptyBuffer)
        r.fonts r.footer_h r.main_h with
    | nil => exact absurd hbp hne
    | cons a l => simp
  unfold prev_page
  rw [if_neg (by omega), if_pos h1]
  unfold load_chapter
  rw [if_pos hcond, htogether]
  simp only [display_page_pages, display_page_chapter, display_page_buffer]
  refine ⟨trivial, trivial, trivial, ?_⟩
  rw [display_page_current_page _ (by simpa [display_page_pages] using hne)]
  simp only [display_page_pages]
  rw [min_self]
  omega

/-- Two-chapter reader state sitting at page 0 of chapter 1, used by the
chapter-boundary witness. -/
def sampleReader2 : Reader :=
  { spineBufs := [sampleBuffer, sampleBuffer], fonts := sampleFonts,
    footer_h := 40, main_h := 480, current_chapter := 1,
    buffer := sampleBuffer, pages := [(0, 44)], current_page := 0,
    canvasText := [], canvasTags := [], footerPage := (1, 1),
    footerChapter := (2, 2) }

theorem prev_page_lands_on_last_witness :
    (sampleReader2.current_page = 0 ∧ 0 < sampleReader2.current_chapter ∧
        sampleReader2.current_chapter ≤ sampleReader2.spineBufs.length) ∧
      ((prev_page sampleReader2).current_chapter =
          sampleReader2.current_chapter - 1 ∧
        (prev_page sampleReader2).buffer =
          sampleReader2.spineBufs.getD
            (sampleReader2.current_chapter - 1) emptyBuffer ∧
        (prev_page sampleReader2).pages =
          build_pages (sampleReader2.spineBufs.getD
              (sampleReader2.current_chapter - 1) emptyBuffer)
            sampleReader2.fonts sampleReader2.footer_h sampleReader2.main_h ∧
        (prev_page sampleReader2).current_page + 1 =
          (build_pages (sampleReader2.spineBufs.getD
              (sampleReader2.current_chapter - 1) emptyBuffer)
            sampleReader2.fonts sampleReader2.footer_h
            sampleReader2.main_h).length) :=
  ⟨⟨by decide, by decide, by decide⟩,
    prev_page_lands_on_last sampleReader2 (by decide) (by decide) (by decide)⟩

/-- C9: applying a recalled bookmark `(chap, page)` loads the target chapter
(rebuilding the page list) and then `display_page` clamps the stored page
index into the freshly computed page count: a stored index at or past the
new count resolves to the last valid page, and the whole operation is a
total function (no error is raised). -/
theorem go_to_bookmark_clamps (r : Reader) (chap : Int) (page : Nat)
    (h1 : 0 ≤ chap) (h2 : chap < (r.spineBufs.length : Int)) :
    (go_to_bookmark r chap page).pages =
        build_pages (r.spineBufs.getD chap.toNat emptyBuffer)
          r.fonts r.footer_h r.main_h ∧
      (go_to_bookmark r chap page).current_chapter = chap.toNat ∧
      (go_to_bookmark r chap page).current_page =
        min page ((build_pages (r.spineBufs.getD chap.toNat emptyBuffer)
          r.fonts r.footer_h r.main_h).length - 1) ∧
      ((build_pages (r.spineBufs.getD chap.toNat emptyBuffer)
            r.fonts r.footer_h r.main_h).length ≤ page →
        (go_to_bookmark r chap page).current_page + 1 =
          (build_pages (r.spineBufs.getD chap.toNat emptyBuffer)
            r.fonts r.footer_h r.main_h).length) := by
  have hne := build_pages_ne_nil
    (r.spineBufs.getD chap.toNat emptyBuffer) r.fonts r.footer_h r.main_h
  have hlen : 1 ≤ (build_pages (r.spineBufs.getD chap.toNat emptyBuffer)
      r.fonts r.footer_h r.main_h).length := by
    cases hbp : build_pages (r.spineBufs.getD chap.toNat emptyBuffer)
        r.fonts r.footer_h r.main_h with
    | nil => exact absurd hbp hne
    | cons a l => simp
  have hcp : (go_to_bookmark r chap page).current_page =
      min page ((build_pages (r.spineBufs.getD chap.toNat emptyBuffer)
        r.fonts r.footer_h r.main_h).length - 1) := by
    unfold go_to_bookmark load_chapter
    rw [if_pos ⟨h1, h2⟩]
    rw [display_page_current_page _ (by simpa [display_page_pages] using hne)]
    simp only [display_page_pages]
  refine ⟨?_, ?_, hcp, ?_⟩
  · unfold go_to_bookmark load_chapter
    rw [if_pos ⟨h1, h2⟩]
    simp only [display_page_pages]
  · unfold go_to_bookmark load_chapter
    rw [if_pos ⟨h1, h2⟩]
    simp only [display_page_chapter]
  · intro hp
    rw [hcp, min_eq_right (by omega)]
    omega

theorem go_to_bookmark_clamps_witness :
    ((0 : Int) ≤ 0 ∧ (0 : Int) < (sampleReader.spineBufs.length : Int)) ∧
      ((go_to_bookmark sampleReader 0 999).pages =
          build_pages (sampleReader.spineBufs.getD (0 : Int).toNat emptyBuffer)
            sampleReader.fonts sampleReader.footer_h sampleReader.main_h ∧
        (go_to_bookmark sampleReader 0 999).current_chapter = (0 : Int).toNat ∧
        (go_to_bookmark sampleReader 0 999).current_page =
          min 999 ((build_pages
            (sampleReader.spineBufs.getD (0 : Int).toNat emptyBuffer)
            sampleReader.fonts sampleReader.footer_h
            sampleReader.main_h).length - 1) ∧
        ((build_pages (sampleReader.spineBufs.getD (0 : Int).toNat emptyBuffer)
              sampleReader.fonts sampleReader.footer_h
              sampleReader.main_h).length ≤ 999 →
          (go_to_bookmark sampleReader 0 999).current_page + 1 =
            (build_pages (sampleReader.spineBufs.getD (0 : Int).toNat emptyBuffer)
              sampleReader.fonts sampleReader.footer_h
              sampleReader.main_h).length)) :=
  ⟨⟨by decide, by decide⟩,
    go_to_bookmark_clamps sampleReader 0 999 (by decide) (by decide)⟩

/-!
Async image loader of `cbz_reader_view.py`.  Worker generations are numbered
in order of creation by `_load_current_image`: `nextGen` counts the requests
issued so far, `reqIdx g` is the page index captured by request `g` at issue
time (`idx = self.current_index`), and `cancelled g` records whether the
`threading.Event` handed to worker `g` has been `set()`.  `_load_current_image`
first sets the previous worker's event and then starts a new worker with a
fresh, unset event.  The decode result of worker `g` is committed by
`update_ui`, which refuses to touch the displayed bitmap or the page label
when the worker's cancel event is set or `self.current_index` has moved away
from the requested index (the widget-destroyed check is modelled as the
widget existing). -/
structure CBZState where
  images_len : Nat
  current_index : Nat
  nextGen : Nat
  cancelled : Nat → Bool
  reqIdx : Nat → Nat
  displayedGen : Option Nat
  displayedIdx : Option Nat
  pageLabel : Option (Nat × Nat)

/-- Initial `CBZReaderWindow` state for an archive with `n` images: no
request issued yet, nothing displayed. -/
def initCBZ (n : Nat) : CBZState :=
  { images_len := n, current_index := 0, nextGen := 0,
    cancelled := fun _ => false, reqIdx := fun _ => 0,
    displayedGen := none, displayedIdx := none, pageLabel := none }

/-- `_load_current_image`: set the previous worker's cancel event (a no-op
when no worker was ever started), then start worker `nextGen` for the
current index with a fresh event. -/
def issueRequest (s : CBZState) : CBZState :=
  { s with
    cancelled := fun g => if g + 1 = s.nextGen then true else s.cancelled g,
    reqIdx := fun g => if g = s.nextGen then s.current_index else s.reqIdx g,
    nextGen := s.nextGen + 1 }

/-- `update_ui` for worker generation `g`: if the worker's cancel event is
set or the current page index no longer equals the requested one, do
nothing; otherwise commit the decoded bitmap and the page label. -/
def commitResult (s : CBZState) (g : Nat) : CBZState :=
  if s.cancelled g = true ∨ s.current_index ≠ s.reqIdx g then s
  else
    { s with
      displayedGen := some g,
      displayedIdx := some (s.reqIdx g),
      pageLabel := some (s.reqIdx g + 1, s.images_len) }

/-- One observable step of the CBZ reader: navigation (`next_page` /
`prev_page`), issuing a load request, or a worker completion reaching
`update_ui`. -/
inductive CBZStep : CBZState → CBZState → Prop
  | nav_next (s : CBZState) : s.current_index + 1 < s.images_len →
      CBZStep s { s with current_index := s.current_index + 1 }
  | nav_prev (s : CBZState) : 0 < s.current_index →
      CBZStep s { s with current_index := s.current_index - 1 }
  | issue (s : CBZState) : CBZStep s (issueRequest s)
  | commit (s : CBZState) (g : Nat) : g < s.nextGen →
      CBZStep s (commitResult s g)

/-- States reachable from a fresh reader by any interleaving of navigation,
requests, and (possibly out-of-order) worker completions. -/
inductive CBZReachable : CBZState → Prop
  | init (n : Nat) : CBZReachable (initCBZ n)
  | step {s t : CBZState} : CBZReachable s → CBZStep s t → CBZReachable t

/-- Projections of `commitResult` that are never modified by a commit. -/
theorem commitResult_nextGen (s : CBZState) (g : Nat) :
    (commitResult s g).nextGen = s.nextGen := by
  unfold commitResult
  split <;> rfl

theorem commitResult_cancelled (s : CBZState) (g : Nat) :
    (commitResult s g).cancelled = s.cancelled := by
  unfold commitResult
  split <;> rfl

/-- In every reachable state, every generation that has been superseded by a
newer request has its cancel event set. -/
theorem cancelled_of_superseded {s : CBZState} (h : CBZReachable s) :
    ∀ g, g + 1 < s.nextGen → s.cancelled g = true := by
  induction h with
  | init n => intro g hg; simp [initCBZ] at hg
  | step hs hstep ih =>
    cases hstep with
    | nav_next hn => intro g hg; exact ih g hg
    | nav_prev hn => intro g hg; exact ih g hg
    | issue =>
      rename_i s0
      intro g hg
      simp only [issueRequest] at hg ⊢
      by_cases hgen : g + 1 = s0.nextGen
      · rw [if_pos hgen]
      · rw [if_neg hgen]
        exact ih g (by omega)
    | commit g hgen =>
      rename_i s0
      intro g2 hg2
      rw [commitResult_cancelled]
      rw [commitResult_nextGen] at hg2
      exact ih g2 hg2

/-- C8: image load results are committed stale-safely.  A completion whose
request has been superseded — its cancel event set, or the reader's current
index no longer equal to the requested index at commit time — never updates
the displayed bitmap or the page label; any completion of a generation older
than the newest request leaves the state unchanged; and a commit that does
change the display can only come from the newest request, whose index still
matches the current page. -/
theorem stale_commit_discarded (s : CBZState) (g : Nat) (hr : CBZReachable s)
    (hg : g < s.nextGen) :
    (s.cancelled g = true ∨ s.current_index ≠ s.reqIdx g → commitResult s g = s) ∧
      (g + 1 < s.nextGen → commitResult s g = s) ∧
      (commitResult s g ≠ s → g + 1 = s.nextGen ∧ s.current_index = s.reqIdx g) := by
  refine ⟨?_, ?_, ?_⟩
  · intro h
    unfold commitResult
    rw [if_pos h]
  · intro h
    unfold commitResult
    rw [if_pos (Or.inl (cancelled_of_superseded hr g h))]
  · intro hne
    by_cases hc : s.cancelled g = true ∨ s.current_index ≠ s.reqIdx g
    · exact absurd (by unfold commitResult; rw [if_pos hc]) hne
    · push_neg at hc
      refine ⟨?_, hc.2⟩
      by_contra hlt
      exact hc.1 (cancelled_of_superseded hr g (by omega))

/-- Loader state after: request issued for page 0, navigation to page 1,
request issued for page 1.  Generation 0 is superseded (its event was set by
the second `_load_current_image`) and its requested index 0 differs from the
current index 1. -/
def staleDemoState : CBZState :=
  issueRequest { issueRequest (initCBZ 3) with current_index := 1 }

theorem stale_commit_discarded_witness :
    0 < staleDemoState.nextGen ∧
      ((staleDemoState.cancelled 0 = true ∨
          staleDemoState.current_index ≠ staleDemoState.reqIdx 0 →
          commitResult staleDemoState 0 = staleDemoState) ∧
        (0 + 1 < staleDemoState.nextGen →
          commitResult staleDemoState 0 = staleDemoState) ∧
        (commitResult staleDemoState 0 ≠ staleDemoState →
          0 + 1 = staleDemoState.nextGen ∧
            staleDemoState.current_index = staleDemoState.reqIdx 0)) :=
  ⟨by decide,
    stale_commit_discarded staleDemoState 0
      (CBZReachable.step
        (CBZReachable.step
          (CBZReachable.step (CBZReachable.init 3) (CBZStep.issue _))
          (CBZStep.nav_next _ (by decide)))
        (CBZStep.issue _))
      (by decide)⟩

/-!
Markup-to-buffer conversion (`insert_html_into_buffer` / `insert_inline` /
`_insert_text_with_tags`).  A parsed markup tree is a tree of tags and text
nodes; the measurement buffer being filled is a character list plus the
`tag_add` calls performed so far.  String primitives of the source
(`str.lower`, `str.strip`, `str.replace` on single-character patterns) are
modelled character-wise, which agrees with Python on the UTF-8 strings
involved.
-/

inductive HNode where
  | text (s : String)
  | tag (name : String) (children : List HNode)

structure TextBuf where
  content : List Char
  tagAdds : List (String × Nat × Nat)

/-- Python `name.lower()`, character-wise. -/
def lowerName (s : String) : String := String.mk (s.toList.map Char.toLower)

/-- Python `not s.strip()`: the string contains no non-whitespace. -/
def isAllWhitespace (s : String) : Bool := s.toList.all (fun c => c.isWhitespace)

/-- `_insert_text_with_tags`: normalize the text
(`replace("\r", "").replace("\n", " ")`, character-wise), skip it when it
strips to nothing, otherwise append it at `end` and `tag_add` each active
tag over the inserted range (`start = index("end-1c")` before the insert,
`end = index("end-1c")` after). -/
def insert_text_with_tags (buf : TextBuf) (text : String) (tags : List String) :
    TextBuf :=
  let txt := (text.toList.filter (fun c => c ≠ '\r')).map
    (fun c => if c = '\n' then ' ' else c)
  if txt.all (fun c => c.isWhitespace) then buf
  else
    { content := buf.content ++ txt,
      tagAdds := buf.tagAdds ++ tags.map
        (fun t => (t, buf.content.length, buf.content.length + txt.length)) }

/-- Active-tag update of `insert_inline` for a tag node: entering a
`strong`/`b` (resp. `em`/`i`) element adds `bold` (resp. `italic`), or
replaces the concurrently active other emphasis by the combined
`bold_italic` tag.  Heading element names leave the active set unchanged:
no branch of `insert_inline` inspects `h1`/`h2`/`h3`. -/
def inline_tags (name : String) (active : List String) : List String :=
  let t := lowerName name
  let tags1 :=
    if t = "strong" ∨ t = "b" then
      if "italic" ∈ active then
        active.filter (fun x => x ≠ "italic") ++ ["bold_italic"]
      else active ++ ["bold"]
    else active
  if t = "em" ∨ t = "i" then
    if "bold" ∈ tags1 then
      tags1.filter (fun x => x ≠ "bold") ++ ["bold_italic"]
    else tags1 ++ ["italic"]
  else tags1

mutual
/-- `insert_inline`: a text node is inserted with the active tags (skipped
when pure whitespace); a tag node updates the active tags for emphasis
elements and recurses into its children. -/
def insert_inline (buf : TextBuf) (node : HNode) (active : List String) :
    TextBuf :=
  match node with
  | .text s => if isAllWhitespace s then buf else insert_text_with_tags buf s active
  | .tag name children => insert_inline_list buf children (inline_tags name active)

def insert_inline_list (buf : TextBuf) (nodes : List HNode)
    (active : List String) : TextBuf :=
  match nodes with
  | [] => buf
  | n :: rest => insert_inline_list (insert_inline buf n active) rest active
end

mutual
/-- `blk.get_text(separator=" ", strip=True)` is nonempty exactly when some
text node of the block contains a non-whitespace character. -/
def has_real_text : HNode → Bool
  | .text s => !isAllWhitespace s
  | .tag _ children => has_real_text_list children

def has_real_text_list : List HNode → Bool
  | [] => false
  | n :: rest => has_real_text n || has_real_text_list rest
end

/-- Loop body of the normal-markup path of `insert_html_into_buffer` for one
selected block: skip blocks whose text is empty, otherwise run
`insert_inline(blk)` with an empty active-tag set and append the
block-separating newline. -/
def insert_block (buf : TextBuf) (blk : HNode) : TextBuf :=
  if has_real_text blk then
    let b2 := insert_inline buf blk []
    { b2 with content := b2.content ++ ['\n'] }
  else buf

/-- C6 (code bug): converting the normal-markup block `<h1>Title</h1>`
inserts the text `Title` with no tags at all — `insert_inline` updates the
active tag set only for `strong`/`b`/`em`/`i`, so no heading style is ever
attached to an `h1`/`h2`/`h3` block, even though `define_tags` configures
the `h1`/`h2`/`h3` tags and `pick_font_for_index` in `_build_pages` branches
on them.  By contrast, an emphasis block `<p><b>x</b></p>` does receive its
`bold` tag, showing that the tag machinery itself is modelled and exercised. -/
theorem heading_block_gets_no_heading_tag :
    (insert_block ⟨[], []⟩ (HNode.tag "h1" [HNode.text "Title"])).tagAdds = [] ∧
      (insert_block ⟨[], []⟩ (HNode.tag "h1" [HNode.text "Title"])).content =
        "Title".toList ++ ['\n'] ∧
      (insert_block ⟨[], []⟩
          (HNode.tag "p" [HNode.tag "b" [HNode.text "x"]])).tagAdds =
        [("bold", 0, 1)] := by
  refine ⟨?_, ?_, ?_⟩ <;>
    simp [insert_block, has_real_text, has_real_text_list, isAllWhitespace,
      insert_inline, insert_inline_list, inline_tags, insert_text_with_tags,
      lowerName]
